import Mathlib

/-!
Shallow embedding of `vot/dataset/proxy.py` (VOT toolkit proxy sequences).

The module defines a composable proxy layer over sequences:
`ProxySequence` (generic forwarding proxy), `FrameMapChannel` (channel
remapper), `FrameMapSequence` (frame-remapping view) and
`ChannelFilterSequence` (channel-filtering view).

Modelling conventions:
* The external `Sequence` / `Channel` providers (from `vot.dataset`, not part
  of the analysed source) are modelled from the spec as record types
  `BaseSequence` / `BaseChannel` exposing the protocol operations.
* Views are an inductive type `Seq`; each Python method becomes a recursive
  function on `Seq`, resolving dynamic dispatch by constructor.
* Python exceptions are modelled with `Except Err`; `IndexError` from list
  subscripts and `AttributeError` from missing attributes are the two error
  values the claims need.
* Python list subscription `l[i]` (negative indices wrap, out-of-bounds
  raises) is modelled by `pyGet?`, returning `none` where Python raises.
* A Python method with an optional index argument (`tags(index=None)`) is
  split into an indexed form (`tagsAt`) and an omitted-index form
  (`tagsAll`).
* Regions, media frames and per-frame value mappings are opaque to the
  proxy layer; they are modelled as `Nat` tokens.
-/

set_option autoImplicit false

namespace VOTProxy

/-- Opaque ground-truth region token (the proxy layer never inspects it). -/
abbrev Region := Nat

/-- Opaque media-frame token returned by channel frame access. -/
abbrev Media := Nat

/-- Opaque per-frame scalar-value mapping token. -/
abbrev ValMap := Nat

/-- Python error values the proxied operations can raise. -/
inductive Err where
  | indexError
  | attributeError
  deriving DecidableEq, Repr

/-- Result of a Python call: a value or a raised error. -/
abbrev Res (α : Type) := Except Err α

/-- Python list subscription `l[i]`: indices in `[0, len)` index directly,
indices in `[-len, 0)` wrap to `len + i`, anything else raises `IndexError`
(modelled as `none`). -/
def pyGet? {α : Type} (l : List α) (i : Int) : Option α :=
  let j : Int := if i < 0 then (l.length : Int) + i else i
  if 0 ≤ j then l.get? j.toNat else none

/-- Modelled from the spec: a concrete channel provider (external to the
analysed source) exposes per-index frame access, per-index filename lookup,
a length and an intrinsic size; indexed access outside `[0, length)` raises
the out-of-range error. -/
structure BaseChannel where
  length : Nat
  frameAt : Nat → Media
  filenameAt : Nat → String
  size : Nat × Nat

/-- Modelled from the spec: a concrete sequence provider (external to the
analysed source) implements the sequence view protocol: name, dataset,
length, channels, channel lookup (with an implementation-defined default
when the name is omitted), per-index ground truth / tags / values, the
whole-sequence forms of tags and values, and an intrinsic size. -/
structure BaseSequence where
  name : String
  dataset : String
  length : Nat
  size : Nat × Nat
  channels : List String
  channelOf : Option String → Option BaseChannel
  groundtruthAt : Nat → Region
  tagsAt : Nat → List String
  tagsWhole : List (List String)
  valuesAt : Nat → ValMap
  valuesWhole : List ValMap

/-- Channels as seen through the proxy layer: either a concrete source
channel or a `FrameMapChannel` wrapping a channel and an index map. -/
inductive Chan where
  | base : BaseChannel → Chan
  | frameMapChannel : Chan → List Int → Chan

namespace Chan

/-- Python `length`: `FrameMapChannel.length` returns `len(self._map)`; a base
channel reports its own length. -/
def length : Chan → Nat
  | .base b => b.length
  | .frameMapChannel _ m => m.length

/-- Python `frame`: `FrameMapChannel.frame(index)` returns
`self._source.frame(self._map[index])`; the subscript follows Python list
semantics. A base channel (spec-modelled) raises out-of-range outside
`[0, length)`. -/
def frame : Chan → Int → Res Media
  | .base b, i =>
      if 0 ≤ i ∧ i < (b.length : Int) then .ok (b.frameAt i.toNat)
      else .error .indexError
  | .frameMapChannel c m, i =>
      match pyGet? m i with
      | some j => c.frame j
      | none => .error .indexError

/-- Python `filename`: `FrameMapChannel.filename(index)` returns
`self._source.filename(self._map[index])`. -/
def filename : Chan → Int → Res String
  | .base b, i =>
      if 0 ≤ i ∧ i < (b.length : Int) then .ok (b.filenameAt i.toNat)
      else .error .indexError
  | .frameMapChannel c m, i =>
      match pyGet? m i with
      | some j => c.filename j
      | none => .error .indexError

/-- Python `size`: `FrameMapChannel.size` forwards to the source channel. -/
def size : Chan → Nat × Nat
  | .base b => b.size
  | .frameMapChannel c _ => c.size

end Chan

/-- Sequences as seen through the proxy layer: a concrete source sequence or
one of the three proxy classes, each holding its constructor arguments
(`FrameMapSequence` keeps the unfiltered candidate map; the effective map is
the filter computed in `__init__`, see `effectiveMap`; `ChannelFilterSequence`
keeps the requested channel names, its `_filter` list being computed by
`effectiveFilter`). -/
inductive Seq where
  | base : BaseSequence → Seq
  | proxySequence : Seq → Seq
  | frameMapSequence : Seq → List Int → Seq
  | channelFilterSequence : Seq → List String → Seq

/-- A `Frame` handle. Modelled from the spec: `Frame` (from `vot.dataset`,
external to the analysed source) is a pure (owning-sequence, index) pair;
data is resolved lazily through the owning sequence. -/
structure Frame where
  sequence : Seq
  index : Int

namespace Seq

/-- Python `length` property: `ProxySequence.length` returns `len(self._source)`
(which dispatches back to the source's `length`), `FrameMapSequence.length`
returns `len(self._map)` where `self._map` is the constructor-filtered map,
and `ChannelFilterSequence` inherits `ProxySequence.length`. -/
def length : Seq → Nat
  | .base b => b.length
  | .proxySequence s => s.length
  | .frameMapSequence s m =>
      (m.filter (fun i => decide (0 ≤ i) && decide (i < (s.length : Int)))).length
  | .channelFilterSequence s _ => s.length

/-- Python `FrameMapSequence.__init__` computes
`self._map = [i for i in frame_map if i >= 0 and i < source.length]`. -/
def effectiveMap (source : Seq) (frame_map : List Int) : List Int :=
  frame_map.filter (fun i => decide (0 ≤ i) && decide (i < (source.length : Int)))

/-- Python `__len__` on every class returns `self.length`; the concrete source
sequence's `__len__` is modelled from the spec as its frame count. -/
def pyLen : Seq → Nat
  | .base b => b.length
  | .proxySequence s => Seq.length (.proxySequence s)
  | .frameMapSequence s m => Seq.length (.frameMapSequence s m)
  | .channelFilterSequence s f => Seq.length (.channelFilterSequence s f)

/-- Python `frame`: `ProxySequence.frame(index)` returns `Frame(self, index)` with
no range check; `FrameMapSequence.frame(index)` returns
`Frame(self, self._map[index])` (the subscript can raise);
`ChannelFilterSequence` inherits `ProxySequence.frame`. The concrete source
(spec-modelled) raises out-of-range outside `[0, length)`. -/
def frame : Seq → Int → Res Frame
  | .base b, i =>
      if 0 ≤ i ∧ i < (b.length : Int) then .ok ⟨.base b, i⟩
      else .error .indexError
  | .proxySequence s, i => .ok ⟨.proxySequence s, i⟩
  | .frameMapSequence s m, i =>
      match pyGet? (effectiveMap s m) i with
      | some j => .ok ⟨.frameMapSequence s m, j⟩
      | none => .error .indexError
  | .channelFilterSequence s f, i => .ok ⟨.channelFilterSequence s f, i⟩

/-- Python `channels`: `ProxySequence` and `FrameMapSequence` forward to the
source; `ChannelFilterSequence.channels` returns `list(self._channels)`, but
no attribute `_channels` is ever assigned (the constructor stores
`self._filter`), so the lookup raises `AttributeError`. -/
def channels : Seq → Res (List String)
  | .base b => .ok b.channels
  | .proxySequence s => s.channels
  | .frameMapSequence s _ => s.channels
  | .channelFilterSequence _ _ => .error .attributeError

/-- Python `ChannelFilterSequence.__init__` computes
`self._filter = [i for i in channels if i in source.channels()]`; the
membership test calls `source.channels()`, whose errors propagate. -/
def effectiveFilter (source : Seq) (req : List String) : Res (List String) :=
  match source.channels with
  | .ok cs => .ok (req.filter (fun n => cs.contains n))
  | .error e => .error e

/-- Python `ChannelFilterSequence.channel` reads `self._map`, but neither its
constructor nor any base class assigns a `_map` attribute, so the attribute
lookup yields nothing (and raises `AttributeError` at the use site). -/
def channelFilterMapAttr : Option (List Int) := none

/-- Python `channel`: `ProxySequence` forwards to the source.
`FrameMapSequence.channel` resolves the source channel, returns `None` when
absent, else wraps it in `FrameMapChannel(sourcechannel, self._map)`.
`ChannelFilterSequence.channel` returns `None` when the name is not in
`self._filter` (also when the name is omitted), else resolves the source
channel, returns `None` when absent, else evaluates
`FrameMapChannel(sourcechannel, self._map)` — and the `self._map` lookup
raises `AttributeError` (see `channelFilterMapAttr`). -/
def channel : Seq → Option String → Res (Option Chan)
  | .base b, n => .ok ((b.channelOf n).map Chan.base)
  | .proxySequence s, n => s.channel n
  | .frameMapSequence s m, n =>
      match s.channel n with
      | .ok none => .ok none
      | .ok (some c) => .ok (some (.frameMapChannel c (effectiveMap s m)))
      | .error e => .error e
  | .channelFilterSequence s req, n =>
      match effectiveFilter s req with
      | .error e => .error e
      | .ok filt =>
          if (n.elim false (fun name => filt.contains name)) = false then .ok none
          else
            match s.channel n with
            | .ok none => .ok none
            | .ok (some c) =>
                match channelFilterMapAttr with
                | some m => .ok (some (.frameMapChannel c m))
                | none => .error .attributeError
            | .error e => .error e

/-- Python `groundtruth(index)` with an index given: `ProxySequence` forwards;
`FrameMapSequence` returns `self._source.groundtruth(self._map[index])`;
`ChannelFilterSequence` inherits the forwarding. The concrete source
(spec-modelled) raises out-of-range outside `[0, length)`. -/
def groundtruthAt : Seq → Int → Res Region
  | .base b, i =>
      if 0 ≤ i ∧ i < (b.length : Int) then .ok (b.groundtruthAt i.toNat)
      else .error .indexError
  | .proxySequence s, i => s.groundtruthAt i
  | .frameMapSequence s m, i =>
      match pyGet? (effectiveMap s m) i with
      | some j => s.groundtruthAt j
      | none => .error .indexError
  | .channelFilterSequence s _, i => s.groundtruthAt i

end Seq

/-- The loop in `FrameMapSequence.groundtruth(None)`: allocate a list of the
view's length and fill slot `i` with `self._source.groundtruth(m)` for
`i, m` in `enumerate(self._map)`; a raised error aborts the loop. -/
def gtLoop (s : Seq) : List Int → Res (List Region)
  | [] => .ok []
  | j :: rest =>
      match s.groundtruthAt j with
      | .error e => .error e
      | .ok r =>
          match gtLoop s rest with
          | .error e => .error e
          | .ok rs => .ok (r :: rs)

namespace Seq

/-- Python `groundtruth()` with the index omitted: the concrete source
(spec-modelled) returns the full ordered region list; `ProxySequence`
forwards; `FrameMapSequence` rebuilds the list through its map (`gtLoop`);
`ChannelFilterSequence` inherits the forwarding. -/
def groundtruthAll : Seq → Res (List Region)
  | .base b => .ok ((List.range b.length).map b.groundtruthAt)
  | .proxySequence s => s.groundtruthAll
  | .frameMapSequence s m => gtLoop s (effectiveMap s m)
  | .channelFilterSequence s _ => s.groundtruthAll

/-- Python `tags(index)` with an index given: `ProxySequence` forwards;
`FrameMapSequence` returns `self._source.tags(self._map[index])`. -/
def tagsAt : Seq → Int → Res (List String)
  | .base b, i =>
      if 0 ≤ i ∧ i < (b.length : Int) then .ok (b.tagsAt i.toNat)
      else .error .indexError
  | .proxySequence s, i => s.tagsAt i
  | .frameMapSequence s m, i =>
      match pyGet? (effectiveMap s m) i with
      | some j => s.tagsAt j
      | none => .error .indexError
  | .channelFilterSequence s _, i => s.tagsAt i

/-- Python `tags()` with the index omitted: `FrameMapSequence` forwards the
source's whole-sequence call untranslated (`return self._source.tags()`,
flagged `TODO` in the source). -/
def tagsAll : Seq → Res (List (List String))
  | .base b => .ok b.tagsWhole
  | .proxySequence s => s.tagsAll
  | .frameMapSequence s _ => s.tagsAll
  | .channelFilterSequence s _ => s.tagsAll

/-- Python `values(index)` with an index given: `ProxySequence` forwards;
`FrameMapSequence` returns `self._source.values(self._map[index])`. -/
def valuesAt : Seq → Int → Res ValMap
  | .base b, i =>
      if 0 ≤ i ∧ i < (b.length : Int) then .ok (b.valuesAt i.toNat)
      else .error .indexError
  | .proxySequence s, i => s.valuesAt i
  | .frameMapSequence s m, i =>
      match pyGet? (effectiveMap s m) i with
      | some j => s.valuesAt j
      | none => .error .indexError
  | .channelFilterSequence s _, i => s.valuesAt i

/-- Python `values()` with the index omitted: `FrameMapSequence` forwards the
source's whole-sequence call untranslated (`return self._source.values()`,
flagged `TODO` in the source). -/
def valuesAll : Seq → Res (List ValMap)
  | .base b => .ok b.valuesWhole
  | .proxySequence s => s.valuesAll
  | .frameMapSequence s _ => s.valuesAll
  | .channelFilterSequence s _ => s.valuesAll

end Seq

/-- Lazy resolution of a frame handle, modelled from the spec: a consumer
asking the handle for its ground truth is routed through the handle's owning
sequence at the handle's stored index. -/
def Frame.groundtruth (f : Frame) : Res Region :=
  f.sequence.groundtruthAt f.index

end VOTProxy

/-! ### Concrete fixtures used by witnesses and counterexamples -/

namespace VOTProxy

/-- A concrete color channel with 5 frames. -/
def colorChannel : BaseChannel where
  length := 5
  frameAt := fun i => 100 + i
  filenameAt := fun i => toString i
  size := (320, 240)

/-- A concrete infrared channel with 5 frames. -/
def irChannel : BaseChannel where
  length := 5
  frameAt := fun i => 200 + i
  filenameAt := fun i => toString i
  size := (320, 240)

/-- A concrete 5-frame source sequence with channels `color` and `ir`,
ground truth `i` at frame `i`, values `10 + i`. -/
def demoBase : BaseSequence where
  name := "demo"
  dataset := "ds"
  length := 5
  size := (320, 240)
  channels := ["color", "ir"]
  channelOf := fun n =>
    match n with
    | some "color" => some colorChannel
    | some "ir" => some irChannel
    | some _ => none
    | none => some colorChannel
  groundtruthAt := fun i => i
  tagsAt := fun i => [toString i]
  tagsWhole := [["0"], ["1"], ["2"], ["3"], ["4"]]
  valuesAt := fun i => 10 + i
  valuesWhole := [10, 11, 12, 13, 14]

/-- The demo source as a `Seq`. -/
def demoSeq : Seq := .base demoBase

/-! ### Helper lemmas -/

/-- Subscription at a nonnegative index is plain list lookup. -/
theorem pyGet?_natCast {α : Type} (l : List α) (i : Nat) :
    pyGet? l (i : Int) = l.get? i := by
  have h1 : ¬ ((i : Int) < 0) := by omega
  simp [pyGet?, h1]

/-- Subscription raises exactly outside `[-len, len)`. -/
theorem pyGet?_eq_none_iff {α : Type} (l : List α) (i : Int) :
    pyGet? l i = none ↔ i < -(l.length : Int) ∨ (l.length : Int) ≤ i := by
  unfold pyGet?
  by_cases hneg : i < 0
  · simp only [if_pos hneg]
    by_cases hge : (0 : Int) ≤ (l.length : Int) + i
    · rw [if_pos hge, List.get?_eq_none]
      omega
    · rw [if_neg hge]
      constructor
      · intro _; omega
      · intro _; rfl
  · simp only [if_neg hneg]
    rw [if_pos (by omega), List.get?_eq_none]
    omega

/-- Every entry of the constructor-filtered map is a valid source index. -/
theorem effectiveMap_mem_bounds {s : Seq} {m : List Int} {j : Int}
    (hj : j ∈ Seq.effectiveMap s m) : 0 ≤ j ∧ j < (s.length : Int) := by
  have h := List.mem_filter.mp hj
  simpa using h.2

/-- The remapping view's length is the effective map's length. -/
theorem frameMap_length_eq (s : Seq) (m : List Int) :
    (Seq.frameMapSequence s m).length = (Seq.effectiveMap s m).length := rfl

/-- Subscription at a nonnegative index does not wrap. -/
theorem pyGet?_of_nonneg {α : Type} (l : List α) {i : Int} (h : 0 ≤ i) :
    pyGet? l i = l.get? i.toNat := by
  have h1 : ¬ i < 0 := by omega
  simp [pyGet?, h1, h]

/-- A successful subscription yields a list element. -/
theorem pyGet?_mem {α : Type} {l : List α} {i : Int} {a : α}
    (h : pyGet? l i = some a) : a ∈ l := by
  simp only [pyGet?] at h
  by_cases h0 : (0 : Int) ≤ (if i < 0 then (l.length : Int) + i else i)
  · rw [if_pos h0] at h
    exact List.get?_mem h
  · rw [if_neg h0] at h
    cases h

/-- Subscription at an in-range nonnegative index succeeds with the indexed
element. -/
theorem pyGet?_total {α : Type} (l : List α) {i : Int} (h0 : 0 ≤ i)
    (hl : i < (l.length : Int)) : ∃ a, pyGet? l i = some a ∧ a ∈ l := by
  have hlt : i.toNat < l.length := by omega
  refine ⟨l.get ⟨i.toNat, hlt⟩, ?_, List.get_mem l _ _⟩
  rw [pyGet?_of_nonneg l h0, List.get?_eq_get hlt]

/-- Indexed ground truth succeeds on every view at every index inside
`[0, length)`. -/
theorem groundtruthAt_ok (s : Seq) :
    ∀ (i : Int), 0 ≤ i → i < (s.length : Int) →
      ∃ r, s.groundtruthAt i = Except.ok r := by
  induction s with
  | base b =>
      intro i h0 hl
      refine ⟨b.groundtruthAt i.toNat, ?_⟩
      simp only [Seq.groundtruthAt]
      rw [if_pos ⟨h0, hl⟩]
  | proxySequence s ih => intro i h0 hl; exact ih i h0 hl
  | frameMapSequence s m ih =>
      intro i h0 hl
      have hl2 : i < ((Seq.effectiveMap s m).length : Int) := hl
      obtain ⟨j, hp, hj⟩ := pyGet?_total _ h0 hl2
      have hb := effectiveMap_mem_bounds hj
      obtain ⟨r, hr⟩ := ih j hb.1 hb.2
      refine ⟨r, ?_⟩
      simp only [Seq.groundtruthAt]
      rw [hp]
      exact hr
  | channelFilterSequence s f ih => intro i h0 hl; exact ih i h0 hl

/-- Indexed tags succeed on every view at every index inside `[0, length)`. -/
theorem tagsAt_ok (s : Seq) :
    ∀ (i : Int), 0 ≤ i → i < (s.length : Int) →
      ∃ t, s.tagsAt i = Except.ok t := by
  induction s with
  | base b =>
      intro i h0 hl
      refine ⟨b.tagsAt i.toNat, ?_⟩
      simp only [Seq.tagsAt]
      rw [if_pos ⟨h0, hl⟩]
  | proxySequence s ih => intro i h0 hl; exact ih i h0 hl
  | frameMapSequence s m ih =>
      intro i h0 hl
      have hl2 : i < ((Seq.effectiveMap s m).length : Int) := hl
      obtain ⟨j, hp, hj⟩ := pyGet?_total _ h0 hl2
      have hb := effectiveMap_mem_bounds hj
      obtain ⟨t, ht⟩ := ih j hb.1 hb.2
      refine ⟨t, ?_⟩
      simp only [Seq.tagsAt]
      rw [hp]
      exact ht
  | channelFilterSequence s f ih => intro i h0 hl; exact ih i h0 hl

/-- Indexed values succeed on every view at every index inside
`[0, length)`. -/
theorem valuesAt_ok (s : Seq) :
    ∀ (i : Int), 0 ≤ i → i < (s.length : Int) →
      ∃ v, s.valuesAt i = Except.ok v := by
  induction s with
  | base b =>
      intro i h0 hl
      refine ⟨b.valuesAt i.toNat, ?_⟩
      simp only [Seq.valuesAt]
      rw [if_pos ⟨h0, hl⟩]
  | proxySequence s ih => intro i h0 hl; exact ih i h0 hl
  | frameMapSequence s m ih =>
      intro i h0 hl
      have hl2 : i < ((Seq.effectiveMap s m).length : Int) := hl
      obtain ⟨j, hp, hj⟩ := pyGet?_total _ h0 hl2
      have hb := effectiveMap_mem_bounds hj
      obtain ⟨v, hv⟩ := ih j hb.1 hb.2
      refine ⟨v, ?_⟩
      simp only [Seq.valuesAt]
      rw [hp]
      exact hv
  | channelFilterSequence s f ih => intro i h0 hl; exact ih i h0 hl

/-- The fill loop of `FrameMapSequence.groundtruth(None)`, on success,
produces one region per map entry, in order. -/
theorem gtLoop_ok (s : Seq) :
    ∀ (l : List Int) (out : List Region), gtLoop s l = Except.ok out →
      out.length = l.length ∧
      ∀ (i : Nat) (h1 : i < l.length) (h2 : i < out.length),
        s.groundtruthAt (l.get ⟨i, h1⟩) = Except.ok (out.get ⟨i, h2⟩) := by
  intro l
  induction l with
  | nil =>
      intro out h
      simp only [gtLoop] at h
      cases h
      exact ⟨rfl, fun i h1 _ => absurd h1 (by simp)⟩
  | cons j rest ih =>
      intro out h
      simp only [gtLoop] at h
      cases hr : s.groundtruthAt j with
      | error e => rw [hr] at h; cases h
      | ok r =>
          rw [hr] at h
          cases hl : gtLoop s rest with
          | error e => rw [hl] at h; cases h
          | ok rs =>
              rw [hl] at h
              cases h
              have hrest := ih rs hl
              refine ⟨by simpa using hrest.1, fun i h1 h2 => ?_⟩
              cases i with
              | zero => exact hr
              | succ k =>
                  exact hrest.2 k (by simpa using h1) (by simpa using h2)

/-- The fill loop succeeds whenever each mapped ground-truth read does. -/
theorem gtLoop_total (s : Seq) :
    ∀ (l : List Int), (∀ j ∈ l, ∃ r, s.groundtruthAt j = Except.ok r) →
      ∃ out, gtLoop s l = Except.ok out := by
  intro l
  induction l with
  | nil => exact fun _ => ⟨[], rfl⟩
  | cons j rest ih =>
      intro h
      obtain ⟨r, hr⟩ := h j (List.mem_cons_self j rest)
      obtain ⟨out, hout⟩ := ih fun x hx => h x (List.mem_cons_of_mem j hx)
      refine ⟨r :: out, ?_⟩
      simp only [gtLoop, hr, hout]

/-! ### Claim theorems -/

/-- C5: for every source sequence `s` and candidate index list `m`,
`FrameMapSequence(s, m)` has length equal to the number of entries `x` of
`m` with `0 ≤ x < s.length`; the effective map is exactly those entries in
original order (the construction filter), and every retained entry is a
valid source index. -/
theorem frameMap_construction_spec (s : Seq) (m : List Int) :
    (Seq.frameMapSequence s m).length
        = (m.filter (fun x => decide (0 ≤ x) && decide (x < (s.length : Int)))).length ∧
    Seq.effectiveMap s m
        = m.filter (fun x => decide (0 ≤ x) && decide (x < (s.length : Int))) ∧
    ∀ j ∈ Seq.effectiveMap s m, 0 ≤ j ∧ j < (s.length : Int) :=
  ⟨rfl, rfl, fun _ hj => effectiveMap_mem_bounds hj⟩

/-- C5 witness: on the 5-frame demo source with candidate map
`[4, 2, 2, 10, -1]`, the retained entry `4` is a valid source index. -/
theorem frameMap_construction_spec_witness :
    (0 : Int) ≤ 4 ∧ (4 : Int) < (demoSeq.length : Int) :=
  (frameMap_construction_spec demoSeq [4, 2, 2, 10, -1]).2.2 4 (by decide)

/-- C10: for every proxy view (and the spec-modelled concrete source),
`len(view)` (`__len__`) agrees with the `length` accessor. -/
theorem pyLen_eq_length (s : Seq) : s.pyLen = s.length := by
  cases s <;> rfl

/-- C6: for every `FrameMapSequence` view over `s` with effective map
`m' = effectiveMap s m`: indexed `groundtruth(i)` equals
`s.groundtruth(m'[i])` for every view index `i`; and the omitted-index
form returns (never raises) an ordered list of the view's length whose
entry `i` is `s.groundtruth(m'[i])`. -/
theorem frameMap_groundtruth_spec (s : Seq) (m : List Int) :
    (∀ (i : Nat) (h : i < (Seq.effectiveMap s m).length),
        (Seq.frameMapSequence s m).groundtruthAt (i : Int)
          = s.groundtruthAt ((Seq.effectiveMap s m).get ⟨i, h⟩)) ∧
    ∃ out, (Seq.frameMapSequence s m).groundtruthAll = Except.ok out ∧
      out.length = (Seq.frameMapSequence s m).length ∧
      ∀ (i : Nat) (h1 : i < (Seq.effectiveMap s m).length) (h2 : i < out.length),
        s.groundtruthAt ((Seq.effectiveMap s m).get ⟨i, h1⟩)
          = Except.ok (out.get ⟨i, h2⟩) := by
  constructor
  · intro i h
    simp only [Seq.groundtruthAt]
    rw [pyGet?_natCast, List.get?_eq_get h]
  · have htot : ∀ j ∈ Seq.effectiveMap s m, ∃ r, s.groundtruthAt j = Except.ok r := by
      intro j hj
      have hb := effectiveMap_mem_bounds hj
      exact groundtruthAt_ok s j hb.1 hb.2
    obtain ⟨out, hout⟩ := gtLoop_total s (Seq.effectiveMap s m) htot
    have h := gtLoop_ok s (Seq.effectiveMap s m) out hout
    exact ⟨out, hout, h.1, h.2⟩

/-- C6 witness: on the demo source with candidate map `[4, 2, 2, 10, -1]`,
view index 0 reads the source ground truth at mapped index 4; the
omitted-index call returns a list of the view's length, and its first
entry is that ground truth, region 4. -/
theorem frameMap_groundtruth_spec_witness :
    ((Seq.frameMapSequence demoSeq [4, 2, 2, 10, -1]).groundtruthAt ((0 : Nat) : Int)
        = demoSeq.groundtruthAt
            ((Seq.effectiveMap demoSeq [4, 2, 2, 10, -1]).get ⟨0, by decide⟩)) ∧
    (∃ out, (Seq.frameMapSequence demoSeq [4, 2, 2, 10, -1]).groundtruthAll
          = Except.ok out ∧
        out.length = (Seq.frameMapSequence demoSeq [4, 2, 2, 10, -1]).length) ∧
    demoSeq.groundtruthAt
        ((Seq.effectiveMap demoSeq [4, 2, 2, 10, -1]).get ⟨0, by decide⟩)
      = Except.ok 4 := by
  have h := frameMap_groundtruth_spec demoSeq [4, 2, 2, 10, -1]
  obtain ⟨out, hall, hlen, hget⟩ := h.2
  refine ⟨h.1 0 (by decide), ⟨out, hall, hlen⟩, ?_⟩
  have h2 : (Except.ok out : Res (List Region)) = Except.ok [4, 2, 2] := by
    rw [← hall]
    exact rfl
  have hout : out = [4, 2, 2] := Except.ok.inj h2
  subst hout
  exact hget 0 (by decide) (by decide)

/-- C7: for every `FrameMapSequence` view over `s` with effective map `m'`:
`tags(i)` and `values(i)` translate through `m'`, while the omitted-index
forms forward the source's whole-sequence `tags()` / `values()` calls
untranslated. -/
theorem frameMap_tags_values_spec (s : Seq) (m : List Int) :
    (∀ (i : Nat) (h : i < (Seq.effectiveMap s m).length),
        (Seq.frameMapSequence s m).tagsAt ((i : Nat) : Int)
            = s.tagsAt ((Seq.effectiveMap s m).get ⟨i, h⟩) ∧
        (Seq.frameMapSequence s m).valuesAt ((i : Nat) : Int)
            = s.valuesAt ((Seq.effectiveMap s m).get ⟨i, h⟩)) ∧
    (Seq.frameMapSequence s m).tagsAll = s.tagsAll ∧
    (Seq.frameMapSequence s m).valuesAll = s.valuesAll := by
  refine ⟨fun i h => ⟨?_, ?_⟩, rfl, rfl⟩
  · simp only [Seq.tagsAt]
    rw [pyGet?_natCast, List.get?_eq_get h]
  · simp only [Seq.valuesAt]
    rw [pyGet?_natCast, List.get?_eq_get h]

/-- C7 witness: on the demo source with candidate map `[4, 2, 2, 10, -1]`,
view index 1 reads the source tags at mapped index 2. -/
theorem frameMap_tags_values_spec_witness :
    (Seq.frameMapSequence demoSeq [4, 2, 2, 10, -1]).tagsAt ((1 : Nat) : Int)
      = demoSeq.tagsAt
          ((Seq.effectiveMap demoSeq [4, 2, 2, 10, -1]).get ⟨1, by decide⟩) :=
  ((frameMap_tags_values_spec demoSeq [4, 2, 2, 10, -1]).1 1 (by decide)).1

/-- C8: when the source resolves channel `name` to `c`,
`FrameMapSequence(s, m).channel(name)` is `c` wrapped with the view's
effective map; the wrapped channel's length is the map's length, and its
`frame(i)` is the source channel's frame at the mapped index — channel
iteration stays in lockstep with sequence iteration. -/
theorem frameMap_channel_spec (s : Seq) (m : List Int) (name : String) (c : Chan)
    (hc : s.channel (some name) = Except.ok (some c)) :
    (Seq.frameMapSequence s m).channel (some name)
        = Except.ok (some (Chan.frameMapChannel c (Seq.effectiveMap s m))) ∧
    (Chan.frameMapChannel c (Seq.effectiveMap s m)).length
        = (Seq.effectiveMap s m).length ∧
    ∀ (i : Nat) (h : i < (Seq.effectiveMap s m).length),
      (Chan.frameMapChannel c (Seq.effectiveMap s m)).frame ((i : Nat) : Int)
          = c.frame ((Seq.effectiveMap s m).get ⟨i, h⟩) := by
  refine ⟨?_, rfl, fun i h => ?_⟩
  · simp only [Seq.channel]
    rw [hc]
  · simp only [Chan.frame]
    rw [pyGet?_natCast, List.get?_eq_get h]

/-- C8 witness: on the demo source with candidate map `[4, 2, 2, 10, -1]`,
the remapped color channel's frame 0 is the source color channel's frame at
mapped index 4. -/
theorem frameMap_channel_spec_witness :
    (Chan.frameMapChannel (Chan.base colorChannel)
        (Seq.effectiveMap demoSeq [4, 2, 2, 10, -1])).frame ((0 : Nat) : Int)
      = (Chan.base colorChannel).frame
          ((Seq.effectiveMap demoSeq [4, 2, 2, 10, -1]).get ⟨0, by decide⟩) :=
  (frameMap_channel_spec demoSeq [4, 2, 2, 10, -1] "color"
      (Chan.base colorChannel) rfl).2.2 0 (by decide)

/-- C9: a channel that is not in scope is reported as `None`, never as an
error: `FrameMapSequence.channel` returns `None` whenever the source does;
`ChannelFilterSequence.channel` returns `None` whenever the name is not in
the computed allow-set, including when the name is omitted. -/
theorem channel_absence_spec (s : Seq) (m : List Int) (req : List String)
    (n : Option String) (filt : List String) :
    (s.channel n = Except.ok none →
        (Seq.frameMapSequence s m).channel n = Except.ok none) ∧
    (Seq.effectiveFilter s req = Except.ok filt →
        (n.elim false (fun name => filt.contains name)) = false →
        (Seq.channelFilterSequence s req).channel n = Except.ok none) ∧
    (Seq.effectiveFilter s req = Except.ok filt →
        (Seq.channelFilterSequence s req).channel none = Except.ok none) := by
  refine ⟨fun h => ?_, fun hf hn => ?_, fun hf => ?_⟩
  · simp only [Seq.channel]
    rw [h]
  · simp only [Seq.channel]
    rw [hf]
    exact if_pos hn
  · simp only [Seq.channel]
    rw [hf]
    exact if_pos rfl

/-- C9 witness: the remap view reports absence for the unknown channel
`depth`; the filter view with allow-set `{color}` reports absence for `ir`
and for the omitted name. -/
theorem channel_absence_spec_witness :
    (Seq.frameMapSequence demoSeq [0]).channel (some "depth") = Except.ok none ∧
    (Seq.channelFilterSequence demoSeq ["color"]).channel (some "ir")
        = Except.ok none ∧
    (Seq.channelFilterSequence demoSeq ["color"]).channel none = Except.ok none :=
  ⟨(channel_absence_spec demoSeq [0] ["color"] (some "depth") ["color"]).1 rfl,
   (channel_absence_spec demoSeq [0] ["color"] (some "ir") ["color"]).2.1 rfl rfl,
   (channel_absence_spec demoSeq [0] ["color"] none ["color"]).2.2 rfl⟩

/-- C2 counterexample: positional access does not fail for every index
outside `[0, length)`. The generic forwarding proxy over the 5-frame demo
source returns a frame handle at index `5 = length` instead of raising, and
the frame-remapping view returns a handle at index `-1` (Python wrap to the
last map entry, `2`) instead of raising. -/
theorem range_check_claim_cex :
    (Seq.proxySequence demoSeq).length = 5 ∧
    (Seq.proxySequence demoSeq).frame 5
        = Except.ok ⟨Seq.proxySequence demoSeq, 5⟩ ∧
    (Seq.frameMapSequence demoSeq [4, 2, 2, 10, -1]).frame (-1)
        = Except.ok ⟨Seq.frameMapSequence demoSeq [4, 2, 2, 10, -1], 2⟩ :=
  ⟨rfl, rfl, rfl⟩

/-- C2 (amended): positional accessors behave per class. On
`FrameMapSequence`, `frame` and indexed `groundtruth`/`tags`/`values`
raise the out-of-range error exactly for indices below `-length` or
at/above `length`, indices in `[-length, 0)` wrapping Python-style; the
generic forwarding proxy and the channel-filtering view never range-check
`frame` (returning a handle for any index) and forward indexed
`groundtruth`/`tags`/`values` to the source unchanged, propagating the
source's out-of-range error; the channel remapper's `frame`/`filename`
raise the out-of-range error whenever the map subscript is outside the
same wrapped range, and for subscripts inside it delegate to the source
channel at the mapped native index, whose own out-of-range failure
(possible, the remapper's map being unvalidated) propagates unchanged. -/
theorem range_errors_amended (s : Seq) (m : List Int) (f : List String)
    (c : Chan) (cm : List Int) (i : Int) :
    ((Seq.frameMapSequence s m).frame i = Except.error Err.indexError ↔
        (i < -(((Seq.effectiveMap s m).length : Nat) : Int) ∨
          (((Seq.effectiveMap s m).length : Nat) : Int) ≤ i)) ∧
    ((Seq.frameMapSequence s m).groundtruthAt i = Except.error Err.indexError ↔
        (i < -(((Seq.effectiveMap s m).length : Nat) : Int) ∨
          (((Seq.effectiveMap s m).length : Nat) : Int) ≤ i)) ∧
    ((Seq.frameMapSequence s m).tagsAt i = Except.error Err.indexError ↔
        (i < -(((Seq.effectiveMap s m).length : Nat) : Int) ∨
          (((Seq.effectiveMap s m).length : Nat) : Int) ≤ i)) ∧
    ((Seq.frameMapSequence s m).valuesAt i = Except.error Err.indexError ↔
        (i < -(((Seq.effectiveMap s m).length : Nat) : Int) ∨
          (((Seq.effectiveMap s m).length : Nat) : Int) ≤ i)) ∧
    (Seq.frameMapSequence s m).length = (Seq.effectiveMap s m).length ∧
    (Seq.proxySequence s).frame i = Except.ok ⟨Seq.proxySequence s, i⟩ ∧
    (Seq.channelFilterSequence s f).frame i
        = Except.ok ⟨Seq.channelFilterSequence s f, i⟩ ∧
    (Seq.proxySequence s).groundtruthAt i = s.groundtruthAt i ∧
    (Seq.proxySequence s).tagsAt i = s.tagsAt i ∧
    (Seq.proxySequence s).valuesAt i = s.valuesAt i ∧
    (Seq.channelFilterSequence s f).groundtruthAt i = s.groundtruthAt i ∧
    (Seq.channelFilterSequence s f).tagsAt i = s.tagsAt i ∧
    (Seq.channelFilterSequence s f).valuesAt i = s.valuesAt i ∧
    (pyGet? cm i = none ↔ (i < -((cm.length : Nat) : Int) ∨
        ((cm.length : Nat) : Int) ≤ i)) ∧
    (pyGet? cm i = none →
        (Chan.frameMapChannel c cm).frame i = Except.error Err.indexError ∧
        (Chan.frameMapChannel c cm).filename i = Except.error Err.indexError) ∧
    ∀ j, pyGet? cm i = some j →
        (Chan.frameMapChannel c cm).frame i = c.frame j ∧
        (Chan.frameMapChannel c cm).filename i = c.filename j := by
  refine ⟨?_, ?_, ?_, ?_, rfl, rfl, rfl, rfl, rfl, rfl, rfl, rfl, rfl,
    pyGet?_eq_none_iff cm i, ?_, ?_⟩
  · cases hp : pyGet? (Seq.effectiveMap s m) i with
    | none =>
        simp only [Seq.frame, hp]
        have hcond := (pyGet?_eq_none_iff _ i).mp hp
        exact ⟨fun _ => hcond, fun _ => by trivial⟩
    | some j =>
        simp only [Seq.frame, hp]
        constructor
        · intro h
          cases h
        · intro hr
          rw [(pyGet?_eq_none_iff _ i).mpr hr] at hp
          cases hp
  · cases hp : pyGet? (Seq.effectiveMap s m) i with
    | none =>
        simp only [Seq.groundtruthAt, hp]
        have hcond := (pyGet?_eq_none_iff _ i).mp hp
        exact ⟨fun _ => hcond, fun _ => by trivial⟩
    | some j =>
        simp only [Seq.groundtruthAt, hp]
        have hj := pyGet?_mem hp
        have hb := effectiveMap_mem_bounds hj
        obtain ⟨r, hr⟩ := groundtruthAt_ok s j hb.1 hb.2
        rw [hr]
        constructor
        · intro h
          cases h
        · intro hout
          rw [(pyGet?_eq_none_iff _ i).mpr hout] at hp
          cases hp
  · cases hp : pyGet? (Seq.effectiveMap s m) i with
    | none =>
        simp only [Seq.tagsAt, hp]
        have hcond := (pyGet?_eq_none_iff _ i).mp hp
        exact ⟨fun _ => hcond, fun _ => by trivial⟩
    | some j =>
        simp only [Seq.tagsAt, hp]
        have hj := pyGet?_mem hp
        have hb := effectiveMap_mem_bounds hj
        obtain ⟨t, ht⟩ := tagsAt_ok s j hb.1 hb.2
        rw [ht]
        constructor
        · intro h
          cases h
        · intro hout
          rw [(pyGet?_eq_none_iff _ i).mpr hout] at hp
          cases hp
  · cases hp : pyGet? (Seq.effectiveMap s m) i with
    | none =>
        simp only [Seq.valuesAt, hp]
        have hcond := (pyGet?_eq_none_iff _ i).mp hp
        exact ⟨fun _ => hcond, fun _ => by trivial⟩
    | some j =>
        simp only [Seq.valuesAt, hp]
        have hj := pyGet?_mem hp
        have hb := effectiveMap_mem_bounds hj
        obtain ⟨v, hv⟩ := valuesAt_ok s j hb.1 hb.2
        rw [hv]
        constructor
        · intro h
          cases h
        · intro hout
          rw [(pyGet?_eq_none_iff _ i).mpr hout] at hp
          cases hp
  · intro hp
    constructor
    · simp only [Chan.frame, hp]
    · simp only [Chan.filename, hp]
  · intro j hp
    constructor
    · simp only [Chan.frame, hp]
    · simp only [Chan.filename, hp]

/-- C2 (amended) witness: on the demo remap view of length 3, `frame(3)`
and `tags(-4)` raise the out-of-range error, as does `filename(7)` on the
channel remapper with the 3-entry map. -/
theorem range_errors_amended_witness :
    (Seq.frameMapSequence demoSeq [4, 2, 2, 10, -1]).frame 3
        = Except.error Err.indexError ∧
    (Seq.frameMapSequence demoSeq [4, 2, 2, 10, -1]).tagsAt (-4)
        = Except.error Err.indexError ∧
    (Chan.frameMapChannel (Chan.base colorChannel) [4, 2, 2]).filename 7
        = Except.error Err.indexError := by
  have h1 := range_errors_amended demoSeq [4, 2, 2, 10, -1] []
      (Chan.base colorChannel) [4, 2, 2] 3
  have h2 := range_errors_amended demoSeq [4, 2, 2, 10, -1] []
      (Chan.base colorChannel) [4, 2, 2] (-4)
  have h3 := range_errors_amended demoSeq [4, 2, 2, 10, -1] []
      (Chan.base colorChannel) [4, 2, 2] 7
  obtain ⟨hA1, -, -, -, -, -, -, -, -, -, -, -, -, -, -, -⟩ := h1
  obtain ⟨-, -, hC2, -, -, -, -, -, -, -, -, -, -, -, -, -⟩ := h2
  obtain ⟨-, -, -, -, -, -, -, -, -, -, -, -, -, -, hO3, -⟩ := h3
  exact ⟨hA1.mpr (by decide), hC2.mpr (by decide), (hO3 (by decide)).2⟩

/-- C1: `FrameMapSequence.frame(0)` over the demo source with map `[1, 0]`
stores the translated index `m[0] = 1` in the handle (not the view-local
index `0`); resolving that handle through the owning view re-applies the
map and yields the source ground truth at `m[1] = 0` (region `0`), whereas
the view's frame 0 corresponds to source index `m[0] = 1` with ground truth
region `1`. -/
theorem frameMap_frame_stores_translated_index :
    (Seq.frameMapSequence demoSeq [1, 0]).frame 0
        = Except.ok ⟨Seq.frameMapSequence demoSeq [1, 0], 1⟩ ∧
    Frame.groundtruth ⟨Seq.frameMapSequence demoSeq [1, 0], 1⟩
        = Except.ok 0 ∧
    demoSeq.groundtruthAt 1 = Except.ok 1 :=
  ⟨rfl, rfl, rfl⟩

/-- C3: for every source `s` and requested set, every channel name that is
in the computed allow-set and resolvable on the source makes
`ChannelFilterSequence.channel(name)` raise `AttributeError` — the code
evaluates `FrameMapChannel(sourcechannel, self._map)` and no constructor
assigns `self._map` — instead of returning the wrapped channel. -/
theorem channelFilter_channel_raises (s : Seq) (req : List String)
    (name : String) (filt : List String) (c : Chan)
    (hf : Seq.effectiveFilter s req = Except.ok filt)
    (hmem : filt.contains name = true)
    (hc : s.channel (some name) = Except.ok (some c)) :
    (Seq.channelFilterSequence s req).channel (some name)
        = Except.error Err.attributeError := by
  simp only [Seq.channel, hf, Option.elim, hmem, hc, Seq.channelFilterMapAttr]
  simp

/-- C3 witness: on the demo source, `color` is in the computed allow-set
`[color]` and resolves to the color channel, and the call raises. -/
theorem channelFilter_channel_raises_witness :
    (Seq.channelFilterSequence demoSeq ["color"]).channel (some "color")
        = Except.error Err.attributeError :=
  channelFilter_channel_raises demoSeq ["color"] "color" ["color"]
    (Chan.base colorChannel) rfl rfl rfl

/-- C4: on the demo source with requested set `{color}`, the computed
allow-set (the intersection with the source channels) is `[color]`, yet
`ChannelFilterSequence.channels()` raises `AttributeError` (the code reads
the never-assigned `self._channels`) instead of returning it. -/
theorem channelFilter_channels_raises :
    Seq.effectiveFilter demoSeq ["color"] = Except.ok ["color"] ∧
    (Seq.channelFilterSequence demoSeq ["color"]).channels
        = Except.error Err.attributeError :=
  ⟨rfl, rfl⟩
